import Mathlib

/-!
Verification development for the `madrigal_api-gateway` repository
(Go, package `api-gateway`): a shallow embedding of the job-status
streaming subsystem — the event hub (`internal/events`, type `Hub`),
the Kafka update source (`internal/events`, type `KafkaConsumer`),
the stream session (`internal/http/handlers/video_handler.go`,
`handleKafkaStream` / `handleVideoStream` / `fetchJobSnapshot`), and
the upstream HTTP client (`internal/clients/videos/client.go`).

Go byte slices that hold textual JSON are modelled as `String`;
`encoding/json` unmarshalling is modelled by an executable JSON
parser plus decode functions mirroring the Go struct-decoding
semantics actually exercised (`jobStagePayload`, `jobEnvelope`).
External effects (upstream HTTP responses, websocket send outcomes,
Kafka reads, context cancellation) are inputs to the embedded
functions, so every session/loop becomes a pure function of its
event trace.
-/

set_option autoImplicit false

/-- JSON values, the target of the modelled `encoding/json` parser.
Number literals are kept as their lexeme: the gateway never inspects
numeric values, only structure. -/
inductive Json where
  | null
  | bool (b : Bool)
  | num (lexeme : String)
  | str (s : String)
  | arr (elems : List Json)
  | obj (fields : List (String × Json))

/-- JSON insignificant whitespace, as accepted by `encoding/json`. -/
def isJsonWs (c : Char) : Bool :=
  c = ' ' || c = '\t' || c = '\n' || c = '\r'

/-- Drop leading JSON whitespace. -/
def skipWs : List Char → List Char
  | [] => []
  | c :: rest => if isJsonWs c then skipWs rest else c :: rest

/-- Value of a hexadecimal digit, for `\uXXXX` escapes. -/
def hexVal (c : Char) : Option Nat :=
  if '0' ≤ c ∧ c ≤ '9' then some (c.toNat - '0'.toNat)
  else if 'a' ≤ c ∧ c ≤ 'f' then some (c.toNat - 'a'.toNat + 10)
  else if 'A' ≤ c ∧ c ≤ 'F' then some (c.toNat - 'A'.toNat + 10)
  else none

/-- Single-character JSON escapes. -/
def unescape (c : Char) : Option Char :=
  if c = '"' then some '"'
  else if c = '\\' then some '\\'
  else if c = '/' then some '/'
  else if c = 'b' then some (Char.ofNat 8)
  else if c = 'f' then some (Char.ofNat 12)
  else if c = 'n' then some '\n'
  else if c = 'r' then some '\r'
  else if c = 't' then some '\t'
  else none

/-- Parse the body of a JSON string literal (the opening quote already
consumed), returning the decoded characters and the rest of the input.
Control characters below U+0020 are rejected, as in `encoding/json`. -/
def parseStringBody : List Char → Option (List Char × List Char)
  | [] => none
  | c :: rest =>
      if c = '"' then some ([], rest)
      else if c = '\\' then
        match rest with
        | 'u' :: h1 :: h2 :: h3 :: h4 :: r => do
            let a ← hexVal h1
            let b ← hexVal h2
            let c2 ← hexVal h3
            let d ← hexVal h4
            let (cs, s) ← parseStringBody r
            pure (Char.ofNat (((a * 16 + b) * 16 + c2) * 16 + d) :: cs, s)
        | e :: r => do
            let e2 ← unescape e
            let (cs, s) ← parseStringBody r
            pure (e2 :: cs, s)
        | [] => none
      else if c.toNat < 32 then none
      else do
        let (cs, s) ← parseStringBody rest
        pure (c :: cs, s)

/-- ASCII decimal digit test. -/
def isDig (c : Char) : Bool := '0' ≤ c && c ≤ '9'

/-- Take a maximal run of decimal digits. -/
def takeDigits : List Char → List Char × List Char
  | [] => ([], [])
  | c :: rest =>
      if isDig c then
        let (ds, r) := takeDigits rest
        (c :: ds, r)
      else ([], c :: rest)

/-- Integer part of a JSON number: `0`, or a nonzero digit followed by
digits (leading zeros rejected, as in the JSON grammar). -/
def parseIntPart : List Char → Option (List Char × List Char)
  | [] => none
  | '0' :: rest => some (['0'], rest)
  | c :: rest =>
      if isDig c then
        let (ds, r) := takeDigits rest
        some (c :: ds, r)
      else none

/-- Optional fraction part `.digits` of a JSON number. -/
def parseFracPart : List Char → Option (List Char × List Char)
  | '.' :: c :: rest =>
      if isDig c then
        let (ds, r) := takeDigits rest
        some ('.' :: c :: ds, r)
      else none
  | ['.'] => none
  | s => some ([], s)

/-- Optional exponent part `[eE][+-]?digits` of a JSON number. -/
def parseExpPart : List Char → Option (List Char × List Char)
  | c :: rest =>
      if c = 'e' ∨ c = 'E' then
        match rest with
        | s :: c2 :: r2 =>
            if s = '+' ∨ s = '-' then
              if isDig c2 then
                let (ds, r) := takeDigits r2
                some (c :: s :: c2 :: ds, r)
              else none
            else if isDig s then
              let (ds, r) := takeDigits (c2 :: r2)
              some (c :: s :: ds, r)
            else none
        | [s] =>
            if isDig s then some ([c, s], [])
            else none
        | [] => none
      else some ([], c :: rest)
  | [] => some ([], [])

/-- A JSON number lexeme: optional minus, integer part, optional
fraction and exponent. -/
def parseNumber (s : List Char) : Option (List Char × List Char) :=
  match s with
  | '-' :: rest => do
      let (i, r1) ← parseIntPart rest
      let (f, r2) ← parseFracPart r1
      let (e, r3) ← parseExpPart r2
      pure ('-' :: (i ++ f ++ e), r3)
  | _ => do
      let (i, r1) ← parseIntPart s
      let (f, r2) ← parseFracPart r1
      let (e, r3) ← parseExpPart r2
      pure (i ++ f ++ e, r3)

mutual

/-- Fuel-indexed recursive-descent parser for one JSON value.
Fuel strictly decreases on every recursive call; callers supply
fuel larger than any possible call depth for their input. -/
def parseVal : Nat → List Char → Option (Json × List Char)
  | 0, _ => none
  | fuel + 1, s =>
      match skipWs s with
      | 'n' :: 'u' :: 'l' :: 'l' :: rest => some (.null, rest)
      | 't' :: 'r' :: 'u' :: 'e' :: rest => some (.bool true, rest)
      | 'f' :: 'a' :: 'l' :: 's' :: 'e' :: rest => some (.bool false, rest)
      | '"' :: rest => do
          let (cs, r) ← parseStringBody rest
          pure (.str (String.mk cs), r)
      | '[' :: rest =>
          (match skipWs rest with
          | ']' :: r => some (.arr [], r)
          | _ => do
              let (xs, r) ← parseElems fuel rest
              pure (.arr xs, r))
      | '{' :: rest =>
          (match skipWs rest with
          | '}' :: r => some (.obj [], r)
          | _ => do
              let (fs, r) ← parseFields fuel rest
              pure (.obj fs, r))
      | s2 => do
          let (lex, r) ← parseNumber s2
          pure (.num (String.mk lex), r)

/-- Comma-separated JSON array elements up to the closing bracket. -/
def parseElems : Nat → List Char → Option (List Json × List Char)
  | 0, _ => none
  | fuel + 1, s => do
      let (v, r) ← parseVal fuel s
      match skipWs r with
      | ',' :: r2 => do
          let (vs, r3) ← parseElems fuel r2
          pure (v :: vs, r3)
      | ']' :: r2 => pure ([v], r2)
      | _ => none

/-- Comma-separated JSON object members up to the closing brace. -/
def parseFields : Nat → List Char → Option (List (String × Json) × List Char)
  | 0, _ => none
  | fuel + 1, s =>
      match skipWs s with
      | '"' :: rest => do
          let (k, r1) ← parseStringBody rest
          match skipWs r1 with
          | ':' :: r2 => do
              let (v, r3) ← parseVal fuel r2
              match skipWs r3 with
              | ',' :: r4 => do
                  let (fs, r5) ← parseFields fuel r4
                  pure ((String.mk k, v) :: fs, r5)
              | '}' :: r4 => pure ([(String.mk k, v)], r4)
              | _ => none
          | _ => none
      | _ => none

end

/-- Model of `json.Unmarshal`'s syntactic phase: parse one JSON value
from the whole input, requiring only trailing whitespace after it.
Empty or all-whitespace input is a parse error, as in `encoding/json`. -/
def Json.parse (s : String) : Option Json :=
  let cs := s.data
  match parseVal (2 * cs.length + 2) cs with
  | some (j, rest) => if (skipWs rest).isEmpty then some j else none
  | none => none

/-- Decode a JSON value into the `Stage` field of Go's

```
type jobStagePayload struct {
    Job struct { Stage string `json:"stage"` } `json:"job"`
}
```

following `encoding/json` struct semantics: `null` is a no-op, unknown
keys are ignored, later duplicate keys overwrite earlier ones, and a
type mismatch on a matched field is an unmarshalling error (`none`). -/
def decodeStageField (acc : String) : Json → Option String
  | .null => some acc
  | .obj fields =>
      fields.foldl
        (fun r f =>
          r.bind (fun cur =>
            if f.1 = "stage" then
              match f.2 with
              | .null => some cur
              | .str s => some s
              | _ => none
            else some cur))
        (some acc)
  | _ => none

/-- Decode a JSON value into Go's `jobStagePayload` (see
`decodeStageField`), producing the final `Job.Stage` string. -/
def decodeJobStagePayload : Json → Option String
  | .null => some ""
  | .obj fields =>
      fields.foldl
        (fun r f =>
          r.bind (fun cur =>
            if f.1 = "job" then decodeStageField cur f.2 else some cur))
        (some "")
  | _ => none

/-- Model of `extractStage` (video_handler.go): unmarshal the body into
`jobStagePayload` and return `Job.Stage`, or the unmarshalling error.
Go's concrete error strings are abstracted to fixed messages; only
their presence and their being produced by the JSON layer matter. -/
def extractStage (body : String) : Except String String :=
  match Json.parse body with
  | none => .error "invalid json input"
  | some j =>
      match decodeJobStagePayload j with
      | none => .error "cannot unmarshal into jobStagePayload"
      | some s => .ok s

/-- Decode a JSON value into the `ID` field of Go's

```
type jobEnvelope struct {
    Job struct { ID string `json:"id"` } `json:"job"`
}
```

with the same `encoding/json` struct semantics as `decodeStageField`. -/
def decodeIDField (acc : String) : Json → Option String
  | .null => some acc
  | .obj fields =>
      fields.foldl
        (fun r f =>
          r.bind (fun cur =>
            if f.1 = "id" then
              match f.2 with
              | .null => some cur
              | .str s => some s
              | _ => none
            else some cur))
        (some acc)
  | _ => none

/-- Decode a JSON value into Go's `jobEnvelope` (see `decodeIDField`),
producing the final `Job.ID` string. -/
def decodeJobEnvelope : Json → Option String
  | .null => some ""
  | .obj fields =>
      fields.foldl
        (fun r f =>
          r.bind (fun cur =>
            if f.1 = "job" then decodeIDField cur f.2 else some cur))
        (some "")
  | _ => none

/-- Model of `extractJobID` (internal/events): unmarshal the payload
into `jobEnvelope`; report failure (`none`) when unmarshalling fails or
`Job.ID` is empty, exactly the two `("", false)` paths in the Go code. -/
def extractJobID (payload : String) : Option String :=
  match Json.parse payload with
  | none => none
  | some j =>
      match decodeJobEnvelope j with
      | none => none
      | some id => if id = "" then none else some id

/-- The outcome of one upstream HTTP round trip, as seen by
`videos.Client.do`: a transport error from `http.Client.Do`, a body
read error from `io.ReadAll`, or a completed response with a status
code and body.  This is the environment input to the client model. -/
inductive Upstream where
  | netErr (e : String)
  | readErr (e : String)
  | resp (status : Nat) (body : String)

/-- The parts of `videos.Response` the streaming path uses. -/
structure GoResponse where
  statusCode : Nat
  body : String

/-- Model of `videos.Client.do` (client.go): a transport error is
wrapped as `video service request failed: …`, a body read error as
`read video service response: …`, and any completed response — with
any status code — is returned as a `Response` with `err = nil`. -/
def clientDo (u : Upstream) : Except String GoResponse :=
  match u with
  | .netErr e => .error ("video service request failed: " ++ e)
  | .readErr e => .error ("read video service response: " ++ e)
  | .resp status body => .ok { statusCode := status, body := body }

/-- Model of `videos.Client.GetVideo`: rejects an empty videoID,
otherwise performs the round trip via `clientDo`. -/
def clientGetVideo (videoID : String) (u : Upstream) : Except String GoResponse :=
  if videoID = "" then .error "videoID is required"
  else clientDo u

/-- Model of `VideoHandler.fetchJobSnapshot` (video_handler.go):
`GetVideo`, then `extractStage` on the body; returns the body bytes
and the parsed stage, or the first error encountered.  Note: no
status-code inspection happens anywhere on this path. -/
def fetchJobSnapshot (jobID : String) (u : Upstream) : Except String (String × String) :=
  match clientGetVideo jobID u with
  | .error e => .error e
  | .ok resp =>
      match extractStage resp.body with
      | .error e => .error e
      | .ok stage => .ok (resp.body, stage)

/-- The error frame text built by
`fmt.Sprintf("{\"error\":\"%s\"}", err.Error())` in both stream
handlers: the message is interpolated with no JSON escaping. -/
def errorFrame (msg : String) : String :=
  "\x7b\"error\":\"" ++ msg ++ "\"\x7d"

/-- The terminal-stage test `stage == "ready" || stage == "failed"`
used by both stream handlers. -/
def isTerminalStage (stage : String) : Bool :=
  stage = "ready" || stage = "failed"

/-- Success-range HTTP status predicate.  Modelled from the spec:
the code under `src/` never classifies status codes on the streaming
path; this definition exists only to state what the spec calls a
"non-success status". -/
def specSuccessStatus (status : Nat) : Bool :=
  200 ≤ status && status < 300

/-- One arrival in the push-mode select loop of `handleKafkaStream`:
context cancellation, a closed-channel receive (`ok == false`), or a
payload received from the subscription channel together with the
outcome of the subsequent websocket send. -/
inductive KEvent where
  | ctxDone
  | closedChan
  | recv (payload : String) (sendOk : Bool)
deriving DecidableEq

/-- The exit path taken by a `handleKafkaStream` session. -/
inductive KExit where
  | fetchError
  | initSendFailed
  | initTerminal
  | cancelled
  | channelClosed
  | sendFailed
  | terminal
deriving DecidableEq

/-- Observable outcome of a `handleKafkaStream` session: the frames
passed to `websocket.Message.Send` in order, whether
`streamHub.Subscribe` ran, whether the deferred `cancel` has run
(it runs exactly when the handler returns after subscribing), and
the exit path (`none` while the trace is exhausted mid-loop). -/
structure KRun where
  frames : List String
  subscribed : Bool
  cancelCalled : Bool
  exit : Option KExit
deriving DecidableEq

/-- The `for { select { … } }` loop of `handleKafkaStream`: forward
each received payload, stop on cancellation, closed channel, send
failure, or a terminal parsed stage; a stage-parse failure just
continues. -/
def kafkaLoop : List KEvent → List String × Option KExit
  | [] => ([], none)
  | .ctxDone :: _ => ([], some .cancelled)
  | .closedChan :: _ => ([], some .channelClosed)
  | .recv p sendOk :: rest =>
      if sendOk then
        match extractStage p with
        | .error _ =>
            let (fs, e) := kafkaLoop rest
            (p :: fs, e)
        | .ok st =>
            if isTerminalStage st then ([p], some .terminal)
            else
              let (fs, e) := kafkaLoop rest
              (p :: fs, e)
      else ([p], some .sendFailed)

/-- Model of `handleKafkaStream` (video_handler.go): initial snapshot
fetch (error frame and exit on failure), initial snapshot send,
immediate exit when the initial stage is terminal (before any
subscription), then subscribe and run `kafkaLoop`. -/
def handleKafkaStream (jobID : String) (fetch : Upstream) (initSendOk : Bool)
    (events : List KEvent) : KRun :=
  match fetchJobSnapshot jobID fetch with
  | .error e =>
      { frames := [errorFrame e], subscribed := false, cancelCalled := false,
        exit := some .fetchError }
  | .ok (body, stage) =>
      if initSendOk then
        if isTerminalStage stage then
          { frames := [body], subscribed := false, cancelCalled := false,
            exit := some .initTerminal }
        else
          let (fs, e) := kafkaLoop events
          { frames := body :: fs, subscribed := true, cancelCalled := e.isSome,
            exit := e }
      else
        { frames := [body], subscribed := false, cancelCalled := false,
          exit := some .initSendFailed }

/-- One arrival in the poll-mode select loop of `handleVideoStream`:
context cancellation, or a ticker tick carrying the upstream outcome
of that tick's re-fetch and the websocket send outcome. -/
inductive PEvent where
  | ctxDone
  | tick (u : Upstream) (sendOk : Bool)

/-- Initial value of `var lastHash [32]byte`: the all-zero digest. -/
def zeroHash : List Nat := List.replicate 32 0

/-- Result of one `sendUpdate` call: frames passed to `Send`, the
`lastHash` variable after the call, and the `(ok, done)` pair the Go
closure returns. -/
structure SendUpdateResult where
  frames : List String
  lastHash : List Nat
  ok : Bool
  done : Bool
deriving DecidableEq

/-- Model of the `sendUpdate` closure in `handleVideoStream`,
parameterised by the digest function (`sha256.Sum256` is modelled as
an abstract `hash`, since the code depends only on digest equality):
fetch, error frame on failure; skip the send when the digest equals
`lastHash` but still derive `done` from the freshly fetched stage;
otherwise store the new digest and send the body. -/
def sendUpdate (hash : String → List Nat) (jobID : String) (st : List Nat)
    (u : Upstream) (sendOk : Bool) : SendUpdateResult :=
  match fetchJobSnapshot jobID u with
  | .error e => { frames := [errorFrame e], lastHash := st, ok := false, done := true }
  | .ok (body, stage) =>
      let h := hash body
      if h = st then
        { frames := [], lastHash := st, ok := true, done := isTerminalStage stage }
      else if sendOk then
        { frames := [body], lastHash := h, ok := true, done := isTerminalStage stage }
      else
        { frames := [body], lastHash := h, ok := false, done := true }

/-- The ticker loop of `handleVideoStream`: stop on cancellation, run
`sendUpdate` on each tick, stop when it reports `!ok || done`. -/
def pollLoop (hash : String → List Nat) (jobID : String) :
    List Nat → List PEvent → List String
  | _, [] => []
  | _, .ctxDone :: _ => []
  | st, .tick u sendOk :: rest =>
      let r := sendUpdate hash jobID st u sendOk
      if !r.ok || r.done then r.frames
      else r.frames ++ pollLoop hash jobID r.lastHash rest

/-- Model of `handleVideoStream` (video_handler.go): one `sendUpdate`
before the loop (with the zero-initialised `lastHash`), then the
ticker loop. -/
def handleVideoStream (hash : String → List Nat) (jobID : String)
    (first : Upstream) (firstSendOk : Bool) (events : List PEvent) : List String :=
  let r := sendUpdate hash jobID zeroHash first firstSendOk
  if !r.ok || r.done then r.frames
  else r.frames ++ pollLoop hash jobID r.lastHash events

/-- A subscriber channel: the buffered queue (capacity 8 in
`make(chan []byte, 8)`) and whether it has been closed. -/
structure Chan where
  queue : List String
  closed : Bool
deriving DecidableEq

/-- Capacity of a subscriber channel. -/
def chanCap : Nat := 8

/-- State of the `events.Hub`: the `subscribers` registry as an
association list with unique keys (a Go `map[string]map[chan …]`),
channel contents addressed by allocation id, and the next fresh id. -/
structure HubState where
  subs : List (String × List Nat)
  chans : Nat → Chan
  nextId : Nat

/-- Registry lookup, i.e. `h.subscribers[jobID]` with presence flag. -/
def subsLookup : List (String × List Nat) → String → Option (List Nat)
  | [], _ => none
  | (k, l) :: rest, j => if k = j then some l else subsLookup rest j

/-- Registry update for `Subscribe`: create the per-job entry when
missing, then add the channel to it. -/
def subsInsert : List (String × List Nat) → String → Nat → List (String × List Nat)
  | [], j, ch => [(j, [ch])]
  | (k, l) :: rest, j, ch =>
      if k = j then (k, l ++ [ch]) :: rest
      else (k, l) :: subsInsert rest j ch

/-- Registry update for the cancel closure: if the job entry exists
and contains the channel, remove the channel, dropping the whole
entry when it becomes empty; otherwise leave the registry unchanged. -/
def subsRemove : List (String × List Nat) → String → Nat → List (String × List Nat)
  | [], _, _ => []
  | (k, l) :: rest, j, ch =>
      if k = j then
        if ch ∈ l then
          let l2 := l.filter (fun c => c ≠ ch)
          if l2 = [] then rest else (k, l2) :: rest
        else (k, l) :: rest
      else (k, l) :: subsRemove rest j ch

/-- Model of `events.NewHub()`: empty registry.  Unallocated channel
ids map to a fresh open channel; only ids handed out by `subscribe`
are ever registered. -/
def newHub : HubState :=
  { subs := [], chans := fun _ => { queue := [], closed := false }, nextId := 0 }

/-- Model of `Hub.Subscribe`: allocate a fresh open channel of
capacity 8 and register it under the jobID, returning the channel id
(the cancel closure is `HubState.cancel · jobID ch`). -/
def HubState.subscribe (s : HubState) (jobID : String) : HubState × Nat :=
  let ch := s.nextId
  ({ subs := subsInsert s.subs jobID ch,
     chans := fun n => if n = ch then { queue := [], closed := false } else s.chans n,
     nextId := ch + 1 }, ch)

/-- Model of the cancel closure returned by `Hub.Subscribe` for a
given `(jobID, ch)`: deregisters the channel (see `subsRemove`).
It never touches the channel itself — in particular it never closes
it. -/
def HubState.cancel (s : HubState) (jobID : String) (ch : Nat) : HubState :=
  { s with subs := subsRemove s.subs jobID ch }

/-- The non-blocking `select { case ch <- payload: default: }` on a
buffered channel with no concurrent receiver: enqueue when the buffer
has free capacity, otherwise drop. -/
def trySend (payload : String) (c : Chan) : Chan :=
  if c.queue.length < chanCap then { c with queue := c.queue ++ [payload] } else c

/-- Model of `Hub.Publish`: a no-op when the jobID has no registry
entry; otherwise a non-blocking send to each registered channel of
that jobID.  The registry itself is not modified. -/
def HubState.publish (s : HubState) (jobID : String) (payload : String) : HubState :=
  match subsLookup s.subs jobID with
  | none => s
  | some chl =>
      { s with
        chans := chl.foldl
          (fun f ch => fun n => if n = ch then trySend payload (f n) else f n)
          s.chans }

/-- One call against the Hub, for stating invariants over arbitrary
interleavings of `Subscribe`, cancel closures, and `Publish`. -/
inductive HubOp where
  | subscribe (jobID : String)
  | cancel (jobID : String) (ch : Nat)
  | publish (jobID : String) (payload : String)

/-- Run a sequence of Hub calls from a given state. -/
def runOps : List HubOp → HubState → HubState
  | [], s => s
  | .subscribe j :: rest, s => runOps rest (s.subscribe j).1
  | .cancel j ch :: rest, s => runOps rest (s.cancel j ch)
  | .publish j p :: rest, s => runOps rest (s.publish j p)

/-- Well-formedness of the registry inherited from Go's `map`
semantics: job keys are unique. -/
def keysNodup (subs : List (String × List Nat)) : Prop :=
  (subs.map Prod.fst).Nodup

/-- The registry-cleanup invariant: no jobID is ever mapped to an
empty subscriber set. -/
def noEmptyEntries (subs : List (String × List Nat)) : Prop :=
  ∀ e ∈ subs, e.2 ≠ []

/-- Outcome of one `reader.ReadMessage` call in `KafkaConsumer.Run`:
a cancellation/deadline error, any other read error, or a message
with its payload bytes. -/
inductive ReadResult where
  | cancelErr
  | otherErr (e : String)
  | msg (value : String)
deriving DecidableEq

/-- Observable outcome of the consumer loop over a finite read trace:
the `hub.Publish(jobID, msg.Value)` calls in order, the number of
backoff sleeps taken, and whether the loop returned because of a
cancellation/deadline read error. -/
structure ConsumerRun where
  publishes : List (String × String)
  backoffs : Nat
  exitedOnCancel : Bool
deriving DecidableEq

/-- Model of the goroutine body of `KafkaConsumer.Run`: exit on a
cancellation/deadline read error, back off and continue on any other
read error, skip messages without an extractable job id, publish the
raw payload under the extracted id otherwise. -/
def consumerLoop : List ReadResult → ConsumerRun
  | [] => { publishes := [], backoffs := 0, exitedOnCancel := false }
  | .cancelErr :: _ => { publishes := [], backoffs := 0, exitedOnCancel := true }
  | .otherErr _ :: rest =>
      let r := consumerLoop rest
      { r with backoffs := r.backoffs + 1 }
  | .msg v :: rest =>
      match extractJobID v with
      | none => consumerLoop rest
      | some id =>
          let r := consumerLoop rest
          { r with publishes := (id, v) :: r.publishes }

/-- The `events.KafkaConsumerConfig` struct; `MaxWait` is a Go
`time.Duration`, i.e. nanoseconds as a signed integer. -/
structure KafkaConsumerConfig where
  brokers : List String
  topic : String
  groupID : String
  maxWait : Int
deriving DecidableEq

/-- The fields of the `kafka.ReaderConfig` that `NewKafkaConsumer`
derives from its input. -/
structure ReaderConfig where
  brokers : List String
  topic : String
  groupID : String
  maxWait : Int
deriving DecidableEq

/-- `500 * time.Millisecond` in nanoseconds. -/
def defaultMaxWait : Int := 500000000

/-- Model of `events.NewKafkaConsumer`: reject an empty broker list,
empty topic, or empty group id; default a non-positive `MaxWait` to
500ms; otherwise build the reader configuration. -/
def NewKafkaConsumer (cfg : KafkaConsumerConfig) : Except String ReaderConfig :=
  if cfg.brokers = [] then .error "kafka brokers list is empty"
  else if cfg.topic = "" then .error "kafka topic is required"
  else if cfg.groupID = "" then .error "kafka group id is required"
  else
    .ok { brokers := cfg.brokers, topic := cfg.topic, groupID := cfg.groupID,
          maxWait := if cfg.maxWait ≤ 0 then defaultMaxWait else cfg.maxWait }

/-- Model of the Kafka initialisation block in `cmd/main.go`:
when the Kafka integration is enabled, an empty broker list or a
`NewKafkaConsumer` error is fatal (`os.Exit(1)` before the HTTP
server starts serving, modelled as `Except.error`); when disabled,
no consumer is built. -/
def mainKafkaInit (enabled : Bool) (cfg : KafkaConsumerConfig) :
    Except Unit (Option ReaderConfig) :=
  if enabled then
    if cfg.brokers = [] then .error ()
    else
      match NewKafkaConsumer cfg with
      | .error _ => .error ()
      | .ok r => .ok (some r)
  else .ok none

/-- C7: for every event read by the Update Source loop: an unparseable
payload or one without a job identifier is discarded and the loop
proceeds to the next event; a cancellation/deadline read failure exits
the loop; any other read failure retries after a fixed backoff; a
payload with an extractable JobID is published verbatim under that id.
A malformed event never stops processing of subsequent events. -/
theorem consumerLoop_event_handling (bad v e : String) (id : String)
    (rest : List ReadResult)
    (hbad : extractJobID bad = none) (hid : extractJobID v = some id) :
    consumerLoop (ReadResult.msg bad :: rest) = consumerLoop rest
    ∧ consumerLoop (ReadResult.cancelErr :: rest)
        = { publishes := [], backoffs := 0, exitedOnCancel := true }
    ∧ consumerLoop (ReadResult.otherErr e :: rest)
        = { consumerLoop rest with backoffs := (consumerLoop rest).backoffs + 1 }
    ∧ consumerLoop (ReadResult.msg v :: rest)
        = { consumerLoop rest with
            publishes := (id, v) :: (consumerLoop rest).publishes } := by
  refine ⟨?_, ?_, ?_, ?_⟩
  · simp [consumerLoop, hbad]
  · rfl
  · rfl
  · simp [consumerLoop, hid]

/-- Witness for `consumerLoop_event_handling`: a malformed payload
(`{}`, no job id) followed by a well-formed one. -/
theorem consumerLoop_event_handling_witness :
    consumerLoop [ReadResult.msg "\x7b\x7d", ReadResult.msg "\x7b\"job\":\x7b\"id\":\"J1\"\x7d\x7d"]
      = { publishes := [("J1", "\x7b\"job\":\x7b\"id\":\"J1\"\x7d\x7d")], backoffs := 0,
          exitedOnCancel := false } := by
  have h := consumerLoop_event_handling "\x7b\x7d" "\x7b\"job\":\x7b\"id\":\"J1\"\x7d\x7d" "boom" "J1"
    [ReadResult.msg "\x7b\"job\":\x7b\"id\":\"J1\"\x7d\x7d"] (by rfl) (by rfl)
  rw [h.1]
  rfl

/-- Helper: construction fails exactly on an empty broker list, empty
topic, or empty group id. -/
lemma newKafkaConsumer_isOk_iff (cfg : KafkaConsumerConfig) :
    (NewKafkaConsumer cfg).isOk = false
      ↔ (cfg.brokers = [] ∨ cfg.topic = "" ∨ cfg.groupID = "") := by
  unfold NewKafkaConsumer
  by_cases h1 : cfg.brokers = [] <;> by_cases h2 : cfg.topic = "" <;>
    by_cases h3 : cfg.groupID = "" <;> simp [h1, h2, h3, Except.isOk, Except.toBool]

/-- Helper: the reader configuration built on success carries the
defaulted `MaxWait`. -/
lemma newKafkaConsumer_ok_maxWait (cfg : KafkaConsumerConfig) (r : ReaderConfig)
    (hok : NewKafkaConsumer cfg = Except.ok r) :
    r.maxWait = if cfg.maxWait ≤ 0 then defaultMaxWait else cfg.maxWait := by
  unfold NewKafkaConsumer at hok
  split at hok
  · simp at hok
  · split at hok
    · simp at hok
    · split at hok
      · simp at hok
      · simp only [Except.ok.injEq] at hok
        subst hok
        rfl

/-- C8: constructing the Update Source fails with a configuration
error exactly when the broker list, topic, or group id is empty; on
success a non-positive configured `MaxWait` is replaced by the fixed
positive 500ms default; and under `cfg.Kafka.Enabled` any such
construction error is fatal at startup (`cmd/main.go` exits before
serving). -/
theorem NewKafkaConsumer_validation (cfg : KafkaConsumerConfig) (r : ReaderConfig)
    (hok : NewKafkaConsumer cfg = Except.ok r) :
    ((NewKafkaConsumer cfg).isOk = false
        ↔ (cfg.brokers = [] ∨ cfg.topic = "" ∨ cfg.groupID = ""))
    ∧ (cfg.maxWait ≤ 0 → r.maxWait = defaultMaxWait)
    ∧ (0 < defaultMaxWait)
    ∧ (0 < r.maxWait)
    ∧ (∀ cfg2 : KafkaConsumerConfig, (NewKafkaConsumer cfg2).isOk = false →
        mainKafkaInit true cfg2 = Except.error ()) := by
  refine ⟨newKafkaConsumer_isOk_iff cfg, ?_, by decide, ?_, ?_⟩
  · intro hle
    rw [newKafkaConsumer_ok_maxWait cfg r hok]
    simp [hle]
  · rw [newKafkaConsumer_ok_maxWait cfg r hok]
    by_cases hle : cfg.maxWait ≤ 0
    · simp [hle, defaultMaxWait]
    · simp only [hle, if_false]
      omega
  · intro cfg2 hbad
    by_cases hb : cfg2.brokers = []
    · simp [mainKafkaInit, hb]
    · cases h2 : NewKafkaConsumer cfg2 with
      | error msg => simp [mainKafkaInit, hb, h2]
      | ok r2 => rw [h2] at hbad; simp [Except.isOk, Except.toBool] at hbad

/-- Witness for `NewKafkaConsumer_validation`: a fully populated
configuration with an unset (zero) `MaxWait`. -/
theorem NewKafkaConsumer_validation_witness :
    (NewKafkaConsumer { brokers := ["k1:9092"], topic := "updates",
                        groupID := "gw", maxWait := 0 }).isOk = true
    ∧ ((NewKafkaConsumer { brokers := ["k1:9092"], topic := "updates",
                           groupID := "gw", maxWait := 0 }).isOk = false
        ↔ (["k1:9092"] = ([] : List String) ∨ "updates" = "" ∨ "gw" = "")) := by
  refine ⟨by rfl, ?_⟩
  have h := NewKafkaConsumer_validation
    { brokers := ["k1:9092"], topic := "updates", groupID := "gw", maxWait := 0 }
    { brokers := ["k1:9092"], topic := "updates", groupID := "gw",
      maxWait := defaultMaxWait } (by rfl)
  exact h.1

/-- C2: in poll mode, a tick whose fresh fetch succeeds with a
terminal stage ends the session after that tick — the remaining trace
contributes no frames — and the `done` flag is computed from the
freshly fetched stage, so it is `true` (and the session still ends)
even when the digest matches `lastHash` and the send is skipped. -/
theorem pollMode_terminal_tick_ends
    (hash : String → List Nat) (jobID : String) (st : List Nat)
    (u : Upstream) (sendOk : Bool) (body stage : String) (rest : List PEvent)
    (hfetch : fetchJobSnapshot jobID u = Except.ok (body, stage))
    (hterm : isTerminalStage stage = true) :
    pollLoop hash jobID st (PEvent.tick u sendOk :: rest)
      = (sendUpdate hash jobID st u sendOk).frames
    ∧ (sendUpdate hash jobID st u sendOk).done = true
    ∧ (hash body = st → (sendUpdate hash jobID st u sendOk).frames = []) := by
  have hdone : (sendUpdate hash jobID st u sendOk).done = true := by
    unfold sendUpdate
    rw [hfetch]
    by_cases hh : hash body = st
    · simp [hh, hterm]
    · by_cases hs : sendOk <;> simp [hh, hs, hterm]
  refine ⟨?_, hdone, ?_⟩
  · simp [pollLoop, hdone]
  · intro hh
    unfold sendUpdate
    rw [hfetch]
    simp [hh]

/-- Witness for `pollMode_terminal_tick_ends`: a tick fetching a
`ready` snapshot followed by another tick; only the first tick's frame
appears. -/
theorem pollMode_terminal_tick_ends_witness :
    pollLoop (fun s => [s.length]) "j1" zeroHash
      [PEvent.tick (Upstream.resp 200 "\x7b\"job\":\x7b\"stage\":\"ready\"\x7d\x7d") true,
       PEvent.tick (Upstream.resp 200 "\x7b\"job\":\x7b\"stage\":\"ready\"\x7d\x7d") true]
      = ["\x7b\"job\":\x7b\"stage\":\"ready\"\x7d\x7d"] := by
  have h := pollMode_terminal_tick_ends (fun s => [s.length]) "j1" zeroHash
    (Upstream.resp 200 "\x7b\"job\":\x7b\"stage\":\"ready\"\x7d\x7d") true
    "\x7b\"job\":\x7b\"stage\":\"ready\"\x7d\x7d" "ready"
    [PEvent.tick (Upstream.resp 200 "\x7b\"job\":\x7b\"stage\":\"ready\"\x7d\x7d") true]
    (by rfl) (by rfl)
  rw [h.1]
  rfl

/-- C9: in poll mode, two consecutive successful fetches returning
byte-identical content produce exactly one frame (the first tick's,
assuming its digest differs from the stored one); the second identical
tick sends nothing; and in general a successful-fetch tick sends
nothing when the digest equals the stored digest and sends the body
exactly when it differs. -/
theorem pollMode_dedup
    (hash : String → List Nat) (jobID : String) (st : List Nat)
    (u : Upstream) (sendOk2 : Bool) (body stage : String) (rest : List PEvent)
    (hfetch : fetchJobSnapshot jobID u = Except.ok (body, stage))
    (hnew : hash body ≠ st)
    (hterm : isTerminalStage stage = false) :
    pollLoop hash jobID st (PEvent.tick u true :: PEvent.tick u sendOk2 :: rest)
      = body :: pollLoop hash jobID (hash body) rest
    ∧ (sendUpdate hash jobID (hash body) u sendOk2).frames = []
    ∧ (∀ (st2 : List Nat) (u2 : Upstream) (b2 s2 : String) (so2 : Bool),
        fetchJobSnapshot jobID u2 = Except.ok (b2, s2) → hash b2 = st2 →
        (sendUpdate hash jobID st2 u2 so2).frames = [])
    ∧ (∀ (st2 : List Nat) (u2 : Upstream) (b2 s2 : String),
        fetchJobSnapshot jobID u2 = Except.ok (b2, s2) → hash b2 ≠ st2 →
        (sendUpdate hash jobID st2 u2 true).frames = [b2]) := by
  have hskip : ∀ (st2 : List Nat) (u2 : Upstream) (b2 s2 : String) (so2 : Bool),
      fetchJobSnapshot jobID u2 = Except.ok (b2, s2) → hash b2 = st2 →
      (sendUpdate hash jobID st2 u2 so2).frames = [] := by
    intro st2 u2 b2 s2 so2 hf2 hh2
    unfold sendUpdate
    rw [hf2]
    simp [hh2]
  have hsend : ∀ (st2 : List Nat) (u2 : Upstream) (b2 s2 : String),
      fetchJobSnapshot jobID u2 = Except.ok (b2, s2) → hash b2 ≠ st2 →
      (sendUpdate hash jobID st2 u2 true).frames = [b2] := by
    intro st2 u2 b2 s2 hf2 hh2
    unfold sendUpdate
    rw [hf2]
    simp [hh2]
  have hsu1 : sendUpdate hash jobID st u true
      = { frames := [body], lastHash := hash body, ok := true, done := false } := by
    unfold sendUpdate
    rw [hfetch]
    simp [hnew, hterm]
  have hsu2 : sendUpdate hash jobID (hash body) u sendOk2
      = { frames := [], lastHash := hash body, ok := true, done := false } := by
    unfold sendUpdate
    rw [hfetch]
    simp [hterm]
  refine ⟨?_, hskip (hash body) u body stage sendOk2 hfetch rfl, hskip, hsend⟩
  simp [pollLoop, hsu1, hsu2]

/-- Witness for `pollMode_dedup`: two identical `rendering` fetches
followed by an empty trace; exactly one frame is produced. -/
theorem pollMode_dedup_witness :
    pollLoop (fun s => [s.length]) "j1" zeroHash
      [PEvent.tick (Upstream.resp 200 "\x7b\"job\":\x7b\"stage\":\"rendering\"\x7d\x7d") true,
       PEvent.tick (Upstream.resp 200 "\x7b\"job\":\x7b\"stage\":\"rendering\"\x7d\x7d") true]
      = ["\x7b\"job\":\x7b\"stage\":\"rendering\"\x7d\x7d"] := by
  have h := pollMode_dedup (fun s => [s.length]) "j1" zeroHash
    (Upstream.resp 200 "\x7b\"job\":\x7b\"stage\":\"rendering\"\x7d\x7d") true
    "\x7b\"job\":\x7b\"stage\":\"rendering\"\x7d\x7d" "rendering" []
    (by rfl) (by decide) (by rfl)
  rw [h.1]
  rfl

/-- Helper: a JSON string body made of ordinary characters (no quote,
no backslash, no control character) parses to itself. -/
lemma parseStringBody_clean (l rest : List Char)
    (h : ∀ c ∈ l, c ≠ '"' ∧ c ≠ '\\' ∧ 32 ≤ c.toNat) :
    parseStringBody (l ++ '"' :: rest) = some (l, rest) := by
  induction l with
  | nil =>
      rw [List.nil_append, parseStringBody.eq_def]
      simp
  | cons c t ih =>
      obtain ⟨h1, h2, h3⟩ := h c (List.mem_cons_self c t)
      have ht : ∀ c2 ∈ t, c2 ≠ '"' ∧ c2 ≠ '\\' ∧ 32 ≤ c2.toNat :=
        fun c2 hc2 => h c2 (List.mem_cons_of_mem _ hc2)
      rw [List.cons_append, parseStringBody.eq_def]
      simp [h1, h2, Nat.not_lt.mpr h3, ih ht]

/-- Helper: parsing the string-literal value inside an error frame. -/
lemma parseVal_clean_string (f : Nat) (m : String)
    (h : ∀ c ∈ m.data, c ≠ '"' ∧ c ≠ '\\' ∧ 32 ≤ c.toNat) :
    parseVal (f + 1) ('"' :: (m.data ++ ['"', '}'])) = some (Json.str m, ['}']) := by
  have hstr : parseStringBody (m.data ++ '"' :: ['}']) = some (m.data, ['}']) :=
    parseStringBody_clean m.data ['}'] h
  simp [parseVal, skipWs, isJsonWs, hstr]

/-- Helper: parsing the single member of an error frame object. -/
lemma parseFields_errorFrame (f : Nat) (m : String)
    (h : ∀ c ∈ m.data, c ≠ '"' ∧ c ≠ '\\' ∧ 32 ≤ c.toNat) :
    parseFields (f + 2)
        ('"' :: 'e' :: 'r' :: 'r' :: 'o' :: 'r' :: '"' :: ':' :: '"'
          :: (m.data ++ ['"', '}']))
      = some ([("error", Json.str m)], []) := by
  have hkey : parseStringBody
      ('e' :: 'r' :: 'r' :: 'o' :: 'r' :: '"' :: ':' :: '"' :: (m.data ++ ['"', '}']))
      = some (['e', 'r', 'r', 'o', 'r'], ':' :: '"' :: (m.data ++ ['"', '}'])) := by
    have hk := parseStringBody_clean ['e', 'r', 'r', 'o', 'r']
      (':' :: '"' :: (m.data ++ ['"', '}'])) (by decide)
    simpa using hk
  have hval := parseVal_clean_string f m h
  rw [parseFields.eq_def]
  simp [skipWs, isJsonWs, hkey, hval]

/-- Helper: parsing an entire error-frame character list. -/
lemma parseVal_errorFrame (f : Nat) (m : String)
    (h : ∀ c ∈ m.data, c ≠ '"' ∧ c ≠ '\\' ∧ 32 ≤ c.toNat) :
    parseVal (f + 3)
        ('{' :: '"' :: 'e' :: 'r' :: 'r' :: 'o' :: 'r' :: '"' :: ':' :: '"'
          :: (m.data ++ ['"', '}']))
      = some (Json.obj [("error", Json.str m)], []) := by
  have hfields := parseFields_errorFrame f m h
  simp [parseVal, skipWs, isJsonWs, hfields]

/-- Helper: the character list underlying an error frame. -/
lemma errorFrame_data (m : String) :
    (errorFrame m).data
      = '{' :: '"' :: 'e' :: 'r' :: 'r' :: 'o' :: 'r' :: '"' :: ':' :: '"'
          :: (m.data ++ ['"', '}']) := by
  simp [errorFrame, String.data_append]

/-- Helper: an error frame whose message has no quote, backslash, or
control character is well-formed JSON of the shape
`{"error": "<message>"}`. -/
lemma parse_errorFrame_clean (m : String)
    (h : ∀ c ∈ m.data, c ≠ '"' ∧ c ≠ '\\' ∧ 32 ≤ c.toNat) :
    Json.parse (errorFrame m) = some (Json.obj [("error", Json.str m)]) := by
  rw [show Json.parse (errorFrame m)
      = (match parseVal (2 * (errorFrame m).data.length + 2) (errorFrame m).data with
        | some (j, rest) => if (skipWs rest).isEmpty = true then some j else none
        | none => none) from rfl]
  rw [errorFrame_data]
  have hlen : 2 * ('{' :: '"' :: 'e' :: 'r' :: 'r' :: 'o' :: 'r' :: '"' :: ':' :: '"'
      :: (m.data ++ ['"', '}'])).length + 2 = (2 * m.data.length + 23) + 3 := by
    simp [List.length_append]
    omega
  rw [hlen, parseVal_errorFrame (2 * m.data.length + 23) m h]
  simp [skipWs]

/-- Helper: a body whose stage extraction succeeded is parseable JSON. -/
lemma extractStage_ok_parse (body st : String) (h : extractStage body = Except.ok st) :
    Json.parse body ≠ none := by
  unfold extractStage at h
  cases hp : Json.parse body with
  | none => rw [hp] at h; simp at h
  | some j => simp [hp]

/-- Helper: a payload with an extractable job id is parseable JSON. -/
lemma extractJobID_some_parse (p id : String) (h : extractJobID p = some id) :
    Json.parse p ≠ none := by
  unfold extractJobID at h
  cases hp : Json.parse p with
  | none => rw [hp] at h; simp at h
  | some j => simp [hp]

/-- Helper: a successful snapshot fetch means the body's stage
extraction succeeded on exactly that body. -/
lemma fetchJobSnapshot_ok_extract (jobID : String) (u : Upstream) (body stage : String)
    (h : fetchJobSnapshot jobID u = Except.ok (body, stage)) :
    extractStage body = Except.ok stage := by
  unfold fetchJobSnapshot at h
  split at h
  · simp at h
  · split at h
    · simp at h
    · rename_i heq2
      simp only [Except.ok.injEq, Prod.mk.injEq] at h
      obtain ⟨hb, hst⟩ := h
      rw [← hb, ← hst]
      exact heq2

/-- Helper: every frame produced by the push-mode select loop is a
payload received from the subscription channel. -/
lemma kafkaLoop_frames_mem (events : List KEvent) (f : String)
    (hf : f ∈ (kafkaLoop events).1) : ∃ so, KEvent.recv f so ∈ events := by
  induction events with
  | nil => simp [kafkaLoop] at hf
  | cons e rest ih =>
      cases e with
      | ctxDone => simp [kafkaLoop] at hf
      | closedChan => simp [kafkaLoop] at hf
      | recv p so =>
          cases so with
          | false =>
              simp [kafkaLoop] at hf
              exact ⟨false, by simp [hf]⟩
          | true =>
              rcases hk : kafkaLoop rest with ⟨fs, ex⟩
              cases hs : extractStage p with
              | error e2 =>
                  simp [kafkaLoop, hs, hk] at hf
                  rcases hf with hf | hf
                  · exact ⟨true, by simp [hf]⟩
                  · obtain ⟨so2, hso2⟩ := ih (by simp [hk, hf])
                    exact ⟨so2, List.mem_cons_of_mem _ hso2⟩
              | ok st =>
                  by_cases ht : isTerminalStage st = true
                  · simp [kafkaLoop, hs, hk, ht] at hf
                    exact ⟨true, by simp [hf]⟩
                  · simp [kafkaLoop, hs, hk, ht] at hf
                    rcases hf with hf | hf
                    · exact ⟨true, by simp [hf]⟩
                    · obtain ⟨so2, hso2⟩ := ih (by simp [hk, hf])
                      exact ⟨so2, List.mem_cons_of_mem _ hso2⟩

/-- Helper: every frame a `sendUpdate` call passes to `Send` is either
an error frame or the fetched snapshot body. -/
lemma sendUpdate_frames_shape (hash : String → List Nat) (jobID : String)
    (st : List Nat) (u : Upstream) (so : Bool) (f : String)
    (hf : f ∈ (sendUpdate hash jobID st u so).frames) :
    (∃ m, f = errorFrame m) ∨ ∃ stage, fetchJobSnapshot jobID u = Except.ok (f, stage) := by
  unfold sendUpdate at hf
  cases hc : fetchJobSnapshot jobID u with
  | error e =>
      rw [hc] at hf
      simp at hf
      exact Or.inl ⟨e, hf⟩
  | ok bs =>
      rw [hc] at hf
      obtain ⟨body, stage⟩ := bs
      by_cases hh : hash body = st
      · simp [hh] at hf
      · by_cases hso : so = true
        · simp [hh, hso] at hf
          subst hf
          exact Or.inr ⟨stage, rfl⟩
        · simp [hh, hso] at hf
          subst hf
          exact Or.inr ⟨stage, rfl⟩

/-- Helper: every frame produced by the poll loop is an error frame or
parseable JSON. -/
lemma pollLoop_frames_shape (hash : String → List Nat) (jobID : String) :
    ∀ (events : List PEvent) (st : List Nat) (f : String),
      f ∈ pollLoop hash jobID st events →
      (∃ m, f = errorFrame m) ∨ Json.parse f ≠ none := by
  intro events
  induction events with
  | nil => intro st f hf; simp [pollLoop] at hf
  | cons e rest ih =>
      intro st f hf
      cases e with
      | ctxDone => simp [pollLoop] at hf
      | tick u so =>
          have hcase : f ∈ (sendUpdate hash jobID st u so).frames ∨
              f ∈ pollLoop hash jobID (sendUpdate hash jobID st u so).lastHash rest := by
            by_cases hc : (!(sendUpdate hash jobID st u so).ok
                || (sendUpdate hash jobID st u so).done) = true
            · simp [pollLoop, hc] at hf
              exact Or.inl hf
            · simp [pollLoop, hc] at hf
              exact hf
          rcases hcase with hf2 | hf2
          · rcases sendUpdate_frames_shape hash jobID st u so f hf2 with h | ⟨stage, hok⟩
            · exact Or.inl h
            · exact Or.inr (extractStage_ok_parse f stage
                (fetchJobSnapshot_ok_extract jobID u f stage hok))
          · exact ih _ f hf2

/-- C1 (counterexample): a non-success upstream HTTP status (500) with
a stage-parseable body is returned by `fetchJobSnapshot` as a snapshot,
not as a fetch error — the claim's "non-success status is a fetch
error" clause fails, because `videos.Client.do` never inspects
`resp.StatusCode`. -/
theorem fetchJobSnapshot_nonsuccess_counterexample :
    specSuccessStatus 500 = false
    ∧ fetchJobSnapshot "j1" (Upstream.resp 500 "\x7b\"job\":\x7b\"stage\":\"rendering\"\x7d\x7d")
        = Except.ok ("\x7b\"job\":\x7b\"stage\":\"rendering\"\x7d\x7d", "rendering") := by
  exact ⟨rfl, rfl⟩

/-- C1 (amended): for every jobID, the snapshot fetch returns the
job's bytes and parsed stage whenever the upstream round trip
completes — with any status code — and its body's stage parses; it
returns a fetch error exactly on a transport failure, a body read
failure, or a body whose stage cannot be parsed. -/
theorem fetchJobSnapshot_amended (jobID e body stage m : String) (status : Nat)
    (hjob : jobID ≠ "") :
    fetchJobSnapshot jobID (Upstream.netErr e)
      = Except.error ("video service request failed: " ++ e)
    ∧ fetchJobSnapshot jobID (Upstream.readErr e)
      = Except.error ("read video service response: " ++ e)
    ∧ (extractStage body = Except.ok stage →
        fetchJobSnapshot jobID (Upstream.resp status body) = Except.ok (body, stage))
    ∧ (extractStage body = Except.error m →
        fetchJobSnapshot jobID (Upstream.resp status body) = Except.error m) := by
  refine ⟨?_, ?_, ?_, ?_⟩
  · simp [fetchJobSnapshot, clientGetVideo, clientDo, hjob]
  · simp [fetchJobSnapshot, clientGetVideo, clientDo, hjob]
  · intro h
    simp [fetchJobSnapshot, clientGetVideo, clientDo, hjob, h]
  · intro h
    simp [fetchJobSnapshot, clientGetVideo, clientDo, hjob, h]

/-- Witness for `fetchJobSnapshot_amended`: a transport error is
wrapped and surfaced as a fetch error. -/
theorem fetchJobSnapshot_amended_witness :
    fetchJobSnapshot "j2" (Upstream.netErr "connection refused")
      = Except.error ("video service request failed: " ++ "connection refused") :=
  (fetchJobSnapshot_amended "j2" "connection refused" "\x7b\x7d" "" "" 200 (by decide)).1

/-- C3 (counterexample): the error frame for a realistic fetch-error
message (Go transport errors quote the URL, e.g.
`Get "http://…": EOF`) is emitted by the session but is not
well-formed JSON, because the message is interpolated unescaped. -/
theorem errorFrame_malformed_counterexample :
    (handleKafkaStream "j1"
        (Upstream.netErr "Get \"http://upstream/videos/j1\": EOF") true []).frames
      = [errorFrame "video service request failed: Get \"http://upstream/videos/j1\": EOF"]
    ∧ Json.parse
        (errorFrame "video service request failed: Get \"http://upstream/videos/j1\": EOF")
      = none := by
  exact ⟨rfl, rfl⟩

/-- C3 (amended): every frame a stream session passes to `Send` is
either the literal text `{"error":"<message>"}` for some message or
parseable JSON (a fetched snapshot body, or a forwarded payload
provided forwarded payloads carry an extractable job id, as all
payloads published by the update source do); and an error frame is
well-formed JSON of the claimed shape whenever its message contains no
double quote, backslash, or control character — not for every possible
message, since the message is interpolated without escaping. -/
theorem stream_frames_shape
    (jobID : String) (fetch : Upstream) (initSendOk : Bool) (events : List KEvent)
    (hash : String → List Nat) (first : Upstream) (firstSendOk : Bool)
    (pevents : List PEvent)
    (hpayloads : ∀ p so, KEvent.recv p so ∈ events → extractJobID p ≠ none) :
    (∀ f ∈ (handleKafkaStream jobID fetch initSendOk events).frames,
        (∃ m, f = errorFrame m) ∨ Json.parse f ≠ none)
    ∧ (∀ f ∈ handleVideoStream hash jobID first firstSendOk pevents,
        (∃ m, f = errorFrame m) ∨ Json.parse f ≠ none)
    ∧ (∀ m : String, (∀ c ∈ m.data, c ≠ '"' ∧ c ≠ '\\' ∧ 32 ≤ c.toNat) →
        Json.parse (errorFrame m) = some (Json.obj [("error", Json.str m)])) := by
  have hpayload_parse : ∀ p, extractJobID p ≠ none → Json.parse p ≠ none := by
    intro p hp
    cases hid : extractJobID p with
    | none => exact absurd hid hp
    | some id => exact extractJobID_some_parse p id hid
  refine ⟨?_, ?_, fun m hm => parse_errorFrame_clean m hm⟩
  · intro f hf
    unfold handleKafkaStream at hf
    cases hc : fetchJobSnapshot jobID fetch with
    | error e =>
        rw [hc] at hf
        simp at hf
        exact Or.inl ⟨e, hf⟩
    | ok bs =>
        rw [hc] at hf
        obtain ⟨body, stage⟩ := bs
        have hbody : Json.parse body ≠ none :=
          extractStage_ok_parse body stage (fetchJobSnapshot_ok_extract jobID fetch body stage hc)
        cases initSendOk with
        | false =>
            simp at hf
            exact Or.inr (hf ▸ hbody)
        | true =>
            by_cases ht : isTerminalStage stage = true
            · simp [ht] at hf
              exact Or.inr (hf ▸ hbody)
            · rcases hk : kafkaLoop events with ⟨fs, ex⟩
              simp [ht, hk] at hf
              rcases hf with hf | hf
              · exact Or.inr (hf ▸ hbody)
              · obtain ⟨so, hso⟩ := kafkaLoop_frames_mem events f (by simp [hk, hf])
                exact Or.inr (hpayload_parse f (hpayloads f so hso))
  · intro f hf
    unfold handleVideoStream at hf
    have hfirst : f ∈ (sendUpdate hash jobID zeroHash first firstSendOk).frames ∨
        f ∈ pollLoop hash jobID
          (sendUpdate hash jobID zeroHash first firstSendOk).lastHash pevents := by
      by_cases hc : (!(sendUpdate hash jobID zeroHash first firstSendOk).ok
          || (sendUpdate hash jobID zeroHash first firstSendOk).done) = true
      · simp [hc] at hf
        exact Or.inl hf
      · simp [hc] at hf
        exact hf
    rcases hfirst with hf2 | hf2
    · rcases sendUpdate_frames_shape hash jobID zeroHash first firstSendOk f hf2 with
        h | ⟨stage, hok⟩
      · exact Or.inl h
      · exact Or.inr (extractStage_ok_parse f stage
          (fetchJobSnapshot_ok_extract jobID first f stage hok))
    · exact pollLoop_frames_shape hash jobID pevents _ f hf2

/-- Witness for `stream_frames_shape`: a push session that forwards
one consumer-published payload; both frames are parseable JSON, and a
clean message's error frame parses to the claimed object shape. -/
theorem stream_frames_shape_witness :
    (∀ f ∈ (handleKafkaStream "j1" (Upstream.resp 200 "\x7b\"job\":\x7b\"stage\":\"queued\"\x7d\x7d")
        true [KEvent.recv "\x7b\"job\":\x7b\"id\":\"j1\",\"stage\":\"ready\"\x7d\x7d" true]).frames,
      (∃ m, f = errorFrame m) ∨ Json.parse f ≠ none)
    ∧ Json.parse (errorFrame "video service error")
        = some (Json.obj [("error", Json.str "video service error")]) := by
  have h := stream_frames_shape "j1" (Upstream.resp 200 "\x7b\"job\":\x7b\"stage\":\"queued\"\x7d\x7d")
    true [KEvent.recv "\x7b\"job\":\x7b\"id\":\"j1\",\"stage\":\"ready\"\x7d\x7d" true]
    (fun s => [s.length]) (Upstream.resp 200 "\x7b\"job\":\x7b\"stage\":\"queued\"\x7d\x7d") true []
    (by intro p so hp; simp at hp; rw [hp.1]; decide)
  exact ⟨h.1, h.2.2 "video service error" (by decide)⟩

/-- C6: in push mode, each received payload is forwarded verbatim as a
frame before any stage inspection (it is emitted even when its stage
does not parse or is terminal); a stage-parse failure keeps the loop
running; a terminal parsed stage ends the loop; a failed send ends the
loop; and the deferred subscription cancel runs exactly when the
session returns after having subscribed — i.e. on every exit path. -/
theorem pushMode_update_handling
    (p m st : String) (rest : List KEvent)
    (jobID : String) (fetch : Upstream) (initSendOk : Bool) (events : List KEvent) :
    (kafkaLoop (KEvent.recv p false :: rest) = ([p], some KExit.sendFailed))
    ∧ (extractStage p = Except.error m →
        kafkaLoop (KEvent.recv p true :: rest)
          = (p :: (kafkaLoop rest).1, (kafkaLoop rest).2))
    ∧ (extractStage p = Except.ok st → isTerminalStage st = false →
        kafkaLoop (KEvent.recv p true :: rest)
          = (p :: (kafkaLoop rest).1, (kafkaLoop rest).2))
    ∧ (extractStage p = Except.ok st → isTerminalStage st = true →
        kafkaLoop (KEvent.recv p true :: rest) = ([p], some KExit.terminal))
    ∧ ((handleKafkaStream jobID fetch initSendOk events).cancelCalled
        = ((handleKafkaStream jobID fetch initSendOk events).subscribed
            && (handleKafkaStream jobID fetch initSendOk events).exit.isSome)) := by
  refine ⟨by simp [kafkaLoop], ?_, ?_, ?_, ?_⟩
  · intro h
    rcases hk : kafkaLoop rest with ⟨fs, ex⟩
    simp [kafkaLoop, h, hk]
  · intro h ht
    rcases hk : kafkaLoop rest with ⟨fs, ex⟩
    simp [kafkaLoop, h, ht, hk]
  · intro h ht
    simp [kafkaLoop, h, ht]
  · unfold handleKafkaStream
    cases hc : fetchJobSnapshot jobID fetch with
    | error e => simp
    | ok bs =>
        obtain ⟨body, stage⟩ := bs
        cases initSendOk with
        | false => simp
        | true =>
            by_cases ht : isTerminalStage stage = true
            · simp [ht]
            · rcases hk : kafkaLoop events with ⟨fs, ex⟩
              simp [ht, hk]

/-- Witness for `pushMode_update_handling`: a malformed payload is
forwarded and skipped, then a `ready` payload is forwarded and ends
the loop. -/
theorem pushMode_update_handling_witness :
    kafkaLoop [KEvent.recv "oops" true,
               KEvent.recv "\x7b\"job\":\x7b\"stage\":\"ready\"\x7d\x7d" true]
      = (["oops", "\x7b\"job\":\x7b\"stage\":\"ready\"\x7d\x7d"], some KExit.terminal) := by
  have h1 := (pushMode_update_handling "oops" "invalid json input" ""
    [KEvent.recv "\x7b\"job\":\x7b\"stage\":\"ready\"\x7d\x7d" true]
    "j1" (Upstream.resp 200 "\x7b\x7d") true []).2.1 (by rfl)
  have h2 := (pushMode_update_handling "\x7b\"job\":\x7b\"stage\":\"ready\"\x7d\x7d" "" "ready"
    [] "j1" (Upstream.resp 200 "\x7b\x7d") true []).2.2.2.1 (by rfl) (by rfl)
  rw [h1, h2]

/-- Helper: the publish fold leaves channels outside the subscriber
list untouched. -/
lemma publishFold_not_mem (p : String) (l : List Nat) (f : Nat → Chan) (n : Nat)
    (hn : n ∉ l) :
    (l.foldl (fun g ch => fun m => if m = ch then trySend p (g m) else g m) f) n
      = f n := by
  induction l generalizing f with
  | nil => rfl
  | cons ch t ih =>
      simp only [List.foldl_cons]
      have hne : n ≠ ch := by
        intro h
        exact hn (h ▸ List.mem_cons_self ch t)
      have hnt : n ∉ t := fun h => hn (List.mem_cons_of_mem _ h)
      rw [ih _ hnt]
      simp [hne]

/-- Helper: the publish fold performs exactly one non-blocking send to
each channel in a duplicate-free subscriber list. -/
lemma publishFold_mem (p : String) (l : List Nat) (f : Nat → Chan) (n : Nat)
    (hmem : n ∈ l) (hnd : l.Nodup) :
    (l.foldl (fun g ch => fun m => if m = ch then trySend p (g m) else g m) f) n
      = trySend p (f n) := by
  induction l generalizing f with
  | nil => cases hmem
  | cons ch t ih =>
      simp only [List.foldl_cons]
      rcases List.mem_cons.mp hmem with h | h
      · subst h
        have hnt : n ∉ t := (List.nodup_cons.mp hnd).1
        rw [publishFold_not_mem p t _ n hnt]
        simp
      · have hnd2 := (List.nodup_cons.mp hnd).2
        have hne : n ≠ ch := by
          intro he
          subst he
          exact (List.nodup_cons.mp hnd).1 h
        rw [ih _ h hnd2]
        simp [hne]

/-- C4: `Publish(J, P)` leaves the registry unchanged and delivers P
exactly to the registered subscribers of J with free channel capacity:
such a channel's buffer gains P at its tail; a full channel is left
unchanged (that delivery is dropped); any channel not subscribed to J
is untouched; and publishing to a jobID with no registry entry is a
no-op on the whole state. -/
theorem hub_publish_exact (s : HubState) (jobID payload : String)
    (l : List Nat) (ch : Nat)
    (hl : subsLookup s.subs jobID = some l) (hnd : l.Nodup) :
    ((s.publish jobID payload).subs = s.subs)
    ∧ (ch ∈ l → (s.chans ch).queue.length < chanCap →
        ((s.publish jobID payload).chans ch).queue
          = (s.chans ch).queue ++ [payload])
    ∧ (ch ∈ l → chanCap ≤ (s.chans ch).queue.length →
        (s.publish jobID payload).chans ch = s.chans ch)
    ∧ (ch ∉ l → (s.publish jobID payload).chans ch = s.chans ch)
    ∧ (∀ s2 : HubState, subsLookup s2.subs jobID = none →
        s2.publish jobID payload = s2) := by
  refine ⟨?_, ?_, ?_, ?_, ?_⟩
  · unfold HubState.publish
    rw [hl]
  · intro hm hcap
    unfold HubState.publish
    rw [hl]
    simp only
    rw [publishFold_mem payload l s.chans ch hm hnd]
    simp [trySend, hcap]
  · intro hm hcap
    unfold HubState.publish
    rw [hl]
    simp only
    rw [publishFold_mem payload l s.chans ch hm hnd]
    simp [trySend, Nat.not_lt.mpr hcap]
  · intro hm
    unfold HubState.publish
    rw [hl]
    simp only
    rw [publishFold_not_mem payload l s.chans ch hm]
  · intro s2 h2
    unfold HubState.publish
    rw [h2]

/-- Witness for `hub_publish_exact`: two subscribers of `"J"`; the
published payload lands in both buffers. -/
theorem hub_publish_exact_witness :
    (((((newHub.subscribe "J").1.subscribe "J").1.publish "J" "p").chans 0).queue = ["p"])
    ∧ (((((newHub.subscribe "J").1.subscribe "J").1.publish "J" "p").chans 1).queue = ["p"]) := by
  have h := hub_publish_exact ((newHub.subscribe "J").1.subscribe "J").1 "J" "p"
    [0, 1] 0 (by rfl) (by decide)
  have h2 := hub_publish_exact ((newHub.subscribe "J").1.subscribe "J").1 "J" "p"
    [0, 1] 1 (by rfl) (by decide)
  constructor
  · rw [h.2.1 (by decide) (by decide)]
    rfl
  · rw [h2.2.1 (by decide) (by decide)]
    rfl


/-- Helper: one-step unfolding of `subsLookup` on a cons cell. -/
lemma subsLookup_cons (k : String) (l : List Nat) (rest : List (String × List Nat))
    (j : String) :
    subsLookup ((k, l) :: rest) j = if k = j then some l else subsLookup rest j := rfl

/-- Helper: one-step unfolding of `subsInsert` on a cons cell. -/
lemma subsInsert_cons (k : String) (l : List Nat) (rest : List (String × List Nat))
    (j : String) (ch : Nat) :
    subsInsert ((k, l) :: rest) j ch
      = if k = j then (k, l ++ [ch]) :: rest else (k, l) :: subsInsert rest j ch := rfl

/-- Helper: one-step unfolding of `subsRemove` on a cons cell. -/
lemma subsRemove_cons (k : String) (l : List Nat) (rest : List (String × List Nat))
    (j : String) (ch : Nat) :
    subsRemove ((k, l) :: rest) j ch
      = if k = j then
          (if ch ∈ l then
            (if l.filter (fun c => c ≠ ch) = [] then rest
             else (k, l.filter (fun c => c ≠ ch)) :: rest)
           else (k, l) :: rest)
        else (k, l) :: subsRemove rest j ch := rfl

/-- Helper: lookup misses when the key is absent. -/
lemma subsLookup_not_mem (subs : List (String × List Nat)) (j : String)
    (h : j ∉ subs.map Prod.fst) : subsLookup subs j = none := by
  induction subs with
  | nil => rfl
  | cons e rest ih =>
      obtain ⟨k, l⟩ := e
      have hk : k ≠ j := fun he => h (by simp [he])
      rw [subsLookup_cons, if_neg hk]
      exact ih (fun hm => h (by simp [hm]))

/-- Helper: removing under an absent key is a no-op. -/
lemma subsRemove_not_mem (subs : List (String × List Nat)) (j : String) (ch : Nat)
    (h : j ∉ subs.map Prod.fst) : subsRemove subs j ch = subs := by
  induction subs with
  | nil => rfl
  | cons e rest ih =>
      obtain ⟨k, l⟩ := e
      have hk : k ≠ j := fun he => h (by simp [he])
      rw [subsRemove_cons, if_neg hk, ih (fun hm => h (by simp [hm]))]

/-- Helper: removal only ever drops keys. -/
lemma subsRemove_keys_sublist (subs : List (String × List Nat)) (j : String) (ch : Nat) :
    ((subsRemove subs j ch).map Prod.fst).Sublist (subs.map Prod.fst) := by
  induction subs with
  | nil => simp [subsRemove]
  | cons e rest ih =>
      obtain ⟨k, l⟩ := e
      by_cases hk : k = j
      · rw [subsRemove_cons, if_pos hk]
        by_cases hm : ch ∈ l
        · rw [if_pos hm]
          by_cases he : l.filter (fun c => c ≠ ch) = []
          · rw [if_pos he]
            simp only [List.map_cons]
            exact (List.Sublist.refl _).cons _
          · rw [if_neg he]
            simp only [List.map_cons]
            exact (List.Sublist.refl _).cons₂ _
        · rw [if_neg hm]
      · rw [subsRemove_cons, if_neg hk]
        simp only [List.map_cons]
        exact ih.cons₂ _

/-- Helper: removal preserves key uniqueness. -/
lemma keysNodup_subsRemove (subs : List (String × List Nat)) (j : String) (ch : Nat)
    (h : keysNodup subs) : keysNodup (subsRemove subs j ch) :=
  List.Nodup.sublist (subsRemove_keys_sublist subs j ch) h

/-- Helper: removal preserves the no-empty-entries invariant. -/
lemma noEmpty_subsRemove (subs : List (String × List Nat)) (j : String) (ch : Nat)
    (h : noEmptyEntries subs) : noEmptyEntries (subsRemove subs j ch) := by
  induction subs with
  | nil => exact h
  | cons e rest ih =>
      obtain ⟨k, l⟩ := e
      have hrest : noEmptyEntries rest := fun e2 he2 => h e2 (List.mem_cons_of_mem _ he2)
      by_cases hk : k = j
      · rw [subsRemove_cons, if_pos hk]
        by_cases hm : ch ∈ l
        · rw [if_pos hm]
          by_cases he : l.filter (fun c => c ≠ ch) = []
          · rw [if_pos he]
            exact hrest
          · rw [if_neg he]
            intro e2 he2
            rcases List.mem_cons.mp he2 with h2 | h2
            · subst h2
              exact he
            · exact hrest e2 h2
        · rw [if_neg hm]
          exact h
      · rw [subsRemove_cons, if_neg hk]
        intro e2 he2
        rcases List.mem_cons.mp he2 with h2 | h2
        · subst h2
          exact h (k, l) (by simp)
        · exact ih hrest e2 h2

/-- Helper: every key after insertion is the inserted key or an
original key. -/
lemma subsInsert_keys_sub (subs : List (String × List Nat)) (j : String) (ch : Nat) :
    ∀ x ∈ (subsInsert subs j ch).map Prod.fst, x = j ∨ x ∈ subs.map Prod.fst := by
  induction subs with
  | nil =>
      intro x hx
      simp [subsInsert] at hx
      exact Or.inl hx
  | cons e rest ih =>
      obtain ⟨k, l⟩ := e
      intro x hx
      by_cases hk : k = j
      · rw [subsInsert_cons, if_pos hk] at hx
        simp only [List.map_cons] at hx
        rcases List.mem_cons.mp hx with h2 | h2
        · exact Or.inr (by simp [h2])
        · exact Or.inr (by simp [h2])
      · rw [subsInsert_cons, if_neg hk] at hx
        simp only [List.map_cons] at hx
        rcases List.mem_cons.mp hx with h2 | h2
        · exact Or.inr (by simp [h2])
        · rcases ih x h2 with h3 | h3
          · exact Or.inl h3
          · exact Or.inr (by simp [h3])

/-- Helper: insertion preserves key uniqueness. -/
lemma keysNodup_subsInsert (subs : List (String × List Nat)) (j : String) (ch : Nat)
    (h : keysNodup subs) : keysNodup (subsInsert subs j ch) := by
  induction subs with
  | nil => simp [subsInsert, keysNodup]
  | cons e rest ih =>
      obtain ⟨k, l⟩ := e
      have hparts : k ∉ rest.map Prod.fst ∧ (rest.map Prod.fst).Nodup := by
        unfold keysNodup at h
        rw [List.map_cons] at h
        exact List.nodup_cons.mp h
      by_cases hk : k = j
      · rw [subsInsert_cons, if_pos hk]
        unfold keysNodup
        rw [List.map_cons]
        exact List.nodup_cons.mpr hparts
      · rw [subsInsert_cons, if_neg hk]
        unfold keysNodup
        rw [List.map_cons]
        refine List.nodup_cons.mpr ⟨?_, ih hparts.2⟩
        intro hmem
        rcases subsInsert_keys_sub rest j ch k hmem with h2 | h2
        · exact hk h2
        · exact hparts.1 h2

/-- Helper: insertion preserves the no-empty-entries invariant. -/
lemma noEmpty_subsInsert (subs : List (String × List Nat)) (j : String) (ch : Nat)
    (h : noEmptyEntries subs) : noEmptyEntries (subsInsert subs j ch) := by
  induction subs with
  | nil =>
      intro e2 he2
      simp [subsInsert] at he2
      simp [he2]
  | cons e rest ih =>
      obtain ⟨k, l⟩ := e
      have hrest : noEmptyEntries rest := fun e2 he2 => h e2 (List.mem_cons_of_mem _ he2)
      by_cases hk : k = j
      · rw [subsInsert_cons, if_pos hk]
        intro e2 he2
        rcases List.mem_cons.mp he2 with h2 | h2
        · subst h2
          simp
        · exact hrest e2 h2
      · rw [subsInsert_cons, if_neg hk]
        intro e2 he2
        rcases List.mem_cons.mp he2 with h2 | h2
        · subst h2
          exact h (k, l) (by simp)
        · exact ih hrest e2 h2

/-- Helper: a second cancel of the same subscription is a no-op on
the registry. -/
lemma subsRemove_idem (subs : List (String × List Nat)) (j : String) (ch : Nat)
    (hnd : keysNodup subs) :
    subsRemove (subsRemove subs j ch) j ch = subsRemove subs j ch := by
  induction subs with
  | nil => rfl
  | cons e rest ih =>
      obtain ⟨k, l⟩ := e
      have hparts : k ∉ rest.map Prod.fst ∧ (rest.map Prod.fst).Nodup := by
        unfold keysNodup at hnd
        rw [List.map_cons] at hnd
        exact List.nodup_cons.mp hnd
      by_cases hk : k = j
      · rw [subsRemove_cons, if_pos hk]
        by_cases hm : ch ∈ l
        · rw [if_pos hm]
          by_cases he : l.filter (fun c => c ≠ ch) = []
          · rw [if_pos he]
            exact subsRemove_not_mem rest j ch (hk ▸ hparts.1)
          · rw [if_neg he, subsRemove_cons, if_pos hk]
            have hnm : ch ∉ l.filter (fun c => c ≠ ch) := by simp [List.mem_filter]
            rw [if_neg hnm]
        · rw [if_neg hm, subsRemove_cons, if_pos hk, if_neg hm]
      · rw [subsRemove_cons, if_neg hk, subsRemove_cons, if_neg hk, ih hparts.2]

/-- Helper: filtering out an element that is not present changes
nothing. -/
lemma filter_ne_not_mem (l : List Nat) (ch : Nat) (hm : ch ∉ l) :
    l.filter (fun c => c ≠ ch) = l := by
  apply List.filter_eq_self.mpr
  intro a ha
  have hne : a ≠ ch := fun h => hm (h ▸ ha)
  simp [hne]

/-- Helper: the registry after a cancel maps the cancelled job to its
remaining subscribers, or drops the entry when none remain. -/
lemma subsLookup_subsRemove_self (subs : List (String × List Nat)) (j : String)
    (ch : Nat) (l : List Nat) (hnd : keysNodup subs)
    (hl : subsLookup subs j = some l) (hne : l ≠ []) :
    subsLookup (subsRemove subs j ch) j
      = if l.filter (fun c => c ≠ ch) = [] then none
        else some (l.filter (fun c => c ≠ ch)) := by
  induction subs with
  | nil => simp [subsLookup] at hl
  | cons e rest ih =>
      obtain ⟨k, l2⟩ := e
      have hparts : k ∉ rest.map Prod.fst ∧ (rest.map Prod.fst).Nodup := by
        unfold keysNodup at hnd
        rw [List.map_cons] at hnd
        exact List.nodup_cons.mp hnd
      by_cases hk : k = j
      · rw [subsLookup_cons, if_pos hk] at hl
        have hl2 : l2 = l := by simpa using hl
        subst hl2
        rw [subsRemove_cons, if_pos hk]
        by_cases hm : ch ∈ l2
        · rw [if_pos hm]
          by_cases he : l2.filter (fun c => c ≠ ch) = []
          · rw [if_pos he, if_pos he]
            exact subsLookup_not_mem rest j (hk ▸ hparts.1)
          · rw [if_neg he, if_neg he, subsLookup_cons, if_pos hk]
        · rw [if_neg hm, filter_ne_not_mem l2 ch hm, if_neg hne,
            subsLookup_cons, if_pos hk]
      · rw [subsLookup_cons, if_neg hk] at hl
        rw [subsRemove_cons, if_neg hk, subsLookup_cons, if_neg hk]
        exact ih hparts.2 hl

/-- Helper: a cancel never touches any other job's registry entry. -/
lemma subsLookup_subsRemove_other (subs : List (String × List Nat)) (j : String)
    (ch : Nat) (j2 : String) (hne : j2 ≠ j) :
    subsLookup (subsRemove subs j ch) j2 = subsLookup subs j2 := by
  induction subs with
  | nil => rfl
  | cons e rest ih =>
      obtain ⟨k, l⟩ := e
      by_cases hk : k = j
      · have hkj2 : k ≠ j2 := fun h2 => hne (h2 ▸ hk)
        rw [subsRemove_cons, if_pos hk]
        by_cases hm : ch ∈ l
        · by_cases he : l.filter (fun c => c ≠ ch) = []
          · rw [if_pos hm, if_pos he, subsLookup_cons, if_neg hkj2]
          · rw [if_pos hm, if_neg he, subsLookup_cons, if_neg hkj2,
              subsLookup_cons, if_neg hkj2]
        · rw [if_neg hm]
      · rw [subsRemove_cons, if_neg hk, subsLookup_cons, subsLookup_cons]
        by_cases hkj2 : k = j2
        · rw [if_pos hkj2, if_pos hkj2]
        · rw [if_neg hkj2, if_neg hkj2, ih]

/-- Helper: the first subscribe for a job creates its entry with
exactly the new channel. -/
lemma subsLookup_subsInsert_fresh (subs : List (String × List Nat)) (j : String)
    (ch : Nat) (h : subsLookup subs j = none) :
    subsLookup (subsInsert subs j ch) j = some [ch] := by
  induction subs with
  | nil => simp [subsInsert, subsLookup]
  | cons e rest ih =>
      obtain ⟨k, l⟩ := e
      by_cases hk : k = j
      · rw [subsLookup_cons, if_pos hk] at h
        simp at h
      · rw [subsLookup_cons, if_neg hk] at h
        rw [subsInsert_cons, if_neg hk, subsLookup_cons, if_neg hk]
        exact ih h

/-- Helper: publishing never modifies the registry. -/
lemma publish_subs (s : HubState) (j p : String) : (s.publish j p).subs = s.subs := by
  unfold HubState.publish
  split <;> rfl

/-- Helper: every state reachable from the fresh hub by `Subscribe`,
cancel, and `Publish` calls has unique job keys and no empty
subscriber entry. -/
lemma runOps_registry_wf (ops : List HubOp) :
    ∀ s : HubState, keysNodup s.subs → noEmptyEntries s.subs →
      keysNodup (runOps ops s).subs ∧ noEmptyEntries (runOps ops s).subs := by
  induction ops with
  | nil => exact fun s h1 h2 => ⟨h1, h2⟩
  | cons op rest ih =>
      intro s h1 h2
      cases op with
      | subscribe j =>
          exact ih _ (keysNodup_subsInsert _ _ _ h1) (noEmpty_subsInsert _ _ _ h2)
      | cancel j ch =>
          exact ih _ (keysNodup_subsRemove _ _ _ h1) (noEmpty_subsRemove _ _ _ h2)
      | publish j p =>
          exact ih _ (by rw [publish_subs]; exact h1) (by rw [publish_subs]; exact h2)

/-- C5: the cancel closure for a subscription is idempotent; it
removes exactly that subscription — the cancelled job's entry becomes
its remaining subscribers, or disappears when none remain, while every
other job's entry is untouched; the per-job entry is created by the
first subscribe; and after any sequence of Subscribe, cancel, and
Publish operations from a fresh hub, the registry never maps a jobID
to an empty subscriber set. -/
theorem hub_cancel_registry
    (s : HubState) (jobID : String) (ch : Nat) (l : List Nat) (j2 : String)
    (hk : keysNodup s.subs) (hl : subsLookup s.subs jobID = some l)
    (hne : l ≠ []) (hj2 : j2 ≠ jobID) :
    ((s.cancel jobID ch).cancel jobID ch = s.cancel jobID ch)
    ∧ (subsLookup (s.cancel jobID ch).subs jobID
        = if l.filter (fun c => c ≠ ch) = [] then none
          else some (l.filter (fun c => c ≠ ch)))
    ∧ (subsLookup (s.cancel jobID ch).subs j2 = subsLookup s.subs j2)
    ∧ (∀ s2 : HubState, subsLookup s2.subs jobID = none →
        subsLookup ((s2.subscribe jobID).1).subs jobID = some [s2.nextId])
    ∧ (∀ ops : List HubOp, noEmptyEntries (runOps ops newHub).subs) := by
  refine ⟨?_,
    subsLookup_subsRemove_self s.subs jobID ch l hk hl hne,
    subsLookup_subsRemove_other s.subs jobID ch j2 hj2, ?_, ?_⟩
  · unfold HubState.cancel
    rw [subsRemove_idem s.subs jobID ch hk]
  · intro s2 h2
    exact subsLookup_subsInsert_fresh s2.subs jobID s2.nextId h2
  · intro ops
    refine (runOps_registry_wf ops newHub ?_ ?_).2
    · simp [newHub, keysNodup]
    · intro e he
      simp [newHub] at he

/-- Witness for `hub_cancel_registry`: cancelling the only subscriber
of `"J"` removes the whole entry. -/
theorem hub_cancel_registry_witness :
    subsLookup (((newHub.subscribe "J").1.cancel "J" 0).subs) "J" = none := by
  have h := hub_cancel_registry (newHub.subscribe "J").1 "J" 0 [0] "K"
    (by unfold keysNodup; decide) (by rfl) (by decide) (by decide)
  rw [h.2.1]
  rfl

/-- Helper: a non-blocking send never changes the closed flag. -/
lemma trySend_closed (p : String) (c : Chan) : (trySend p c).closed = c.closed := by
  unfold trySend
  split <;> rfl

/-- Helper: the publish fold keeps every channel open. -/
lemma publishFold_closed (p : String) (l : List Nat) (f : Nat → Chan)
    (h : ∀ n, (f n).closed = false) :
    ∀ n, ((l.foldl (fun g ch => fun m => if m = ch then trySend p (g m) else g m) f) n).closed
      = false := by
  induction l generalizing f with
  | nil => exact h
  | cons ch t ih =>
      simp only [List.foldl_cons]
      apply ih
      intro n
      by_cases hn : n = ch
      · simp [hn, trySend_closed, h]
      · simp [hn, h]

/-- Helper: no Hub operation ever closes a channel. -/
lemma runOps_chans_open (ops : List HubOp) :
    ∀ s : HubState, (∀ n, (s.chans n).closed = false) →
      ∀ n, ((runOps ops s).chans n).closed = false := by
  induction ops with
  | nil => exact fun s h => h
  | cons op rest ih =>
      intro s h
      cases op with
      | subscribe j =>
          apply ih
          intro n
          by_cases hn : n = s.nextId
          · simp [HubState.subscribe, hn]
          · simp [HubState.subscribe, hn, h]
      | cancel j ch => exact ih _ h
      | publish j p =>
          apply ih
          intro n
          unfold HubState.publish
          split
          · exact h n
          · exact publishFold_closed p _ s.chans h n

/-- Helper: the push-mode loop never exits through the closed-channel
branch when its trace contains no closed-channel receive. -/
lemma kafkaLoop_no_closed (events : List KEvent)
    (h : ∀ e ∈ events, e ≠ KEvent.closedChan) :
    (kafkaLoop events).2 ≠ some KExit.channelClosed := by
  induction events with
  | nil => simp [kafkaLoop]
  | cons e rest ih =>
      have hrest : ∀ e2 ∈ rest, e2 ≠ KEvent.closedChan :=
        fun e2 he2 => h e2 (List.mem_cons_of_mem _ he2)
      cases e with
      | ctxDone => simp [kafkaLoop]
      | closedChan => exact absurd rfl (h _ (List.mem_cons_self _ _))
      | recv p so =>
          cases so with
          | false => simp [kafkaLoop]
          | true =>
              rcases hk : kafkaLoop rest with ⟨fs, ex⟩
              have hih := ih hrest
              rw [hk] at hih
              cases hs : extractStage p with
              | error e2 =>
                  simp [kafkaLoop, hs, hk]
                  simpa using hih
              | ok st =>
                  by_cases ht : isTerminalStage st = true
                  · simp [kafkaLoop, hs, ht, hk]
                  · simp [kafkaLoop, hs, ht, hk]
                    simpa using hih

/-- C10: the Hub never closes a subscriber channel — from the fresh
hub, after any sequence of `Subscribe`, cancel, and `Publish` calls
every channel's closed flag is still false (the cancel closure only
deregisters) — and consequently a push-mode session whose channel
trace contains no closed-channel receive never exits through the
closed-channel branch. -/
theorem hub_never_closes :
    (∀ (ops : List HubOp) (n : Nat), ((runOps ops newHub).chans n).closed = false)
    ∧ (∀ (jobID : String) (fetch : Upstream) (initSendOk : Bool)
        (events : List KEvent),
        (∀ e ∈ events, e ≠ KEvent.closedChan) →
        (handleKafkaStream jobID fetch initSendOk events).exit
          ≠ some KExit.channelClosed) := by
  constructor
  · intro ops n
    exact runOps_chans_open ops newHub (fun m => rfl) n
  · intro jobID fetch initSendOk events hev
    unfold handleKafkaStream
    cases hc : fetchJobSnapshot jobID fetch with
    | error e => simp
    | ok bs =>
        obtain ⟨body, stage⟩ := bs
        cases initSendOk with
        | false => simp
        | true =>
            by_cases ht : isTerminalStage stage = true
            · simp [ht]
            · rcases hkk : kafkaLoop events with ⟨fs, ex⟩
              have hnc := kafkaLoop_no_closed events hev
              rw [hkk] at hnc
              simp [ht, hkk]
              simpa using hnc

/-- Witness for `hub_never_closes`: a push session over one received
payload does not exit through the closed-channel branch. -/
theorem hub_never_closes_witness :
    (handleKafkaStream "j1" (Upstream.resp 200 "\x7b\"job\":\x7b\"stage\":\"queued\"\x7d\x7d") true
        [KEvent.recv "\x7b\"job\":\x7b\"stage\":\"ready\"\x7d\x7d" true]).exit
      ≠ some KExit.channelClosed :=
  hub_never_closes.2 "j1" (Upstream.resp 200 "\x7b\"job\":\x7b\"stage\":\"queued\"\x7d\x7d") true
    [KEvent.recv "\x7b\"job\":\x7b\"stage\":\"ready\"\x7d\x7d" true] (by decide)
